import Mathlib

/-!
Shallow embedding of the apex-rf SDR pipeline, for checking the
natural-language specification against the source.

Covered source files:
* sdr-service/app/signal_mixer.py  (SignalMixer: setters, passband check,
  jammer synthesis, mixing)
* sdr-service/app/iq_player.py     (IQPlayer: chunked looping playback)
* sdr-service/app/rtl_tcp.py       (broadcast quantization)
* decode-service/app/utils/rtl_tcp_client.py (stream dequantization)
* decode-service/app/utils/clock_recovery.py (CRC-16-CCITT)
* decode-service/app/decoders/ais_decoder.py (AIS frame hunt / acceptance)
* decode-service/app/decoders/metrics_analyzer.py (BER table, packet success)

Modelling conventions: Python floats are idealized as exact rationals.
A complex sample is a pair of rationals (re, im).  Transcendental values
and random draws that the source produces (np.sin, np.exp of imaginary
arguments, np.random.normal, np.random.choice) are supplied by an `Env`
of oracle functions: `cis2pi x` stands for exp(2*pi*j*x) and
`sin2pi x` for sin(2*pi*x); noise and hop draws are oracle streams.
All theorems below quantify over the oracle environment, so they hold in
particular for the true transcendental functions and any random draws.
-/

/-- A complex baseband sample: (re, im) as exact rationals. -/
abbrev Cx : Type := ℚ × ℚ

/-- Scalar multiplication of a sample, models `a * z` in numpy. -/
def scaleC (a : ℚ) (z : Cx) : Cx := (a * z.1, a * z.2)

/-- Complex addition of samples, models element-wise `+` in numpy. -/
def addC (z w : Cx) : Cx := (z.1 + w.1, z.2 + w.2)

/-- Oracle environment for the transcendental and random parts of the
synthesis code.  `cis2pi x` denotes exp(2*pi*j*x); `sin2pi x` denotes
sin(2*pi*x); `noiseI`/`noiseQ` are the standard-normal draw streams used
by barrage (`np.random.normal(0, power, n)` is modelled as
`power * draw`); `hop` is the per-block index into the fhss hop table
(`np.random.choice`). -/
structure Env where
  noiseI : ℕ → ℚ
  noiseQ : ℕ → ℚ
  hop : ℕ → Fin 5
  sin2pi : ℚ → ℚ
  cis2pi : ℚ → Cx

/-- The six valid jamming waveform kinds (signal_mixer.py, `valid_types`).
`set_jamming_type` rejects any other string, so the stored kind is always
one of these. -/
inductive JamType where
  | barrage | spot | sweep | pulse | chirp | fhss
  deriving DecidableEq, Repr

/-- State of `SignalMixer` (signal_mixer.py, `__init__`). -/
structure SignalMixer where
  sample_rate : ℚ
  jamming_enabled : Bool
  jamming_type : JamType
  jamming_power : ℚ
  jamming_frequency : ℚ
  current_freq : ℚ
  sample_counter : ℕ
  deriving DecidableEq, Repr

/-- Initial mixer state (`SignalMixer.__init__` with the default
sample rate). -/
def mixerInit : SignalMixer :=
  { sample_rate := 1024000
    jamming_enabled := false
    jamming_type := JamType.barrage
    jamming_power := 1/10
    jamming_frequency := 100000000
    current_freq := 100000000
    sample_counter := 0 }

/-- `SignalMixer.set_frequency`: update centre frequency, reset counter. -/
def set_frequency (m : SignalMixer) (center_freq : ℚ) : SignalMixer :=
  { m with current_freq := center_freq, sample_counter := 0 }

/-- `SignalMixer.set_sample_rate`: update sample rate, reset counter. -/
def set_sample_rate (m : SignalMixer) (rate : ℚ) : SignalMixer :=
  { m with sample_rate := rate, sample_counter := 0 }

/-- `SignalMixer.set_jamming_frequency`: update target, reset counter. -/
def set_jamming_frequency (m : SignalMixer) (frequency : ℚ) : SignalMixer :=
  { m with jamming_frequency := frequency, sample_counter := 0 }

/-- `SignalMixer.set_jamming_type` for a valid kind: update kind, reset
counter.  (An invalid string is rejected by the source and leaves the
state unchanged; the inductive `JamType` carries only valid kinds.) -/
def set_jamming_type (m : SignalMixer) (t : JamType) : SignalMixer :=
  { m with jamming_type := t, sample_counter := 0 }

/-- `SignalMixer.set_jamming_power`: clamp to [0,1] and store.  The
source performs `max(0.0, min(1.0, power))` and touches nothing else. -/
def set_jamming_power (m : SignalMixer) (power : ℚ) : SignalMixer :=
  { m with jamming_power := max 0 (min 1 power) }

/-- `SignalMixer.enable_jamming`. -/
def enable_jamming (m : SignalMixer) : SignalMixer :=
  { m with jamming_enabled := true }

/-- `SignalMixer.disable_jamming`. -/
def disable_jamming (m : SignalMixer) : SignalMixer :=
  { m with jamming_enabled := false }

/-- `SignalMixer.is_in_bandwidth`: |fj - fc| < fs/2. -/
def is_in_bandwidth (m : SignalMixer) : Bool :=
  decide (|m.jamming_frequency - m.current_freq| < m.sample_rate / 2)

/-- Floored real modulus, models numpy float `%` for the chirp branch
(`t % sweep_time`). -/
def ratMod (a b : ℚ) : ℚ := a - b * ⌊a / b⌋

/-- Inclusive prefix sum `(f 0) + ... + (f i)`, models `np.cumsum` at
index `i`. -/
def cumsum (f : ℕ → ℚ) (i : ℕ) : ℚ := ∑ j ∈ Finset.range (i + 1), f j

/-- The fhss hop frequency table `[-40e3, -20e3, 0, 20e3, 40e3]`. -/
def hopFreqs (i : Fin 5) : ℚ :=
  [(-40000 : ℚ), -20000, 0, 20000, 40000].get (Fin.cast rfl i)

/-- `SignalMixer._generate_jamming`: produce a chunk of `n` jamming
samples and the updated mixer state (the source mutates
`self.sample_counter` in place; here the new state is returned).
Branch-by-branch transcription of the source:
* barrage: I and Q are independent normal draws with std `jamming_power`
  (modelled as `jamming_power * draw`); the counter is not touched.
* spot: out of passband gives `np.zeros(n)`; otherwise a tone
  `A * exp(2*pi*j * (offset/fs) * (counter + i))`, counter advances by n.
* sweep: out of passband gives zeros; otherwise phase is the cumulative
  sum of `2*pi*(offset + 50e3*sin(2*pi*10*t/fs))/fs`, counter + n.
* pulse: out of passband gives zeros; otherwise a tone during the first
  100 samples of every 1000-sample period, zeros elsewhere, counter + n.
* chirp: out of passband gives zeros; otherwise a sawtooth-swept phase
  accumulated by cumulative sum, counter + n.
* fhss: out of passband gives zeros; otherwise per-block tones at a
  randomly hopped offset with a per-block time index; the counter is not
  touched (the source's fhss branch has no counter update). -/
def generate_jamming (env : Env) (m : SignalMixer) (n : ℕ) :
    List Cx × SignalMixer :=
  match m.jamming_type with
  | JamType.barrage =>
      ((List.range n).map
        (fun (i : ℕ) => (m.jamming_power * env.noiseI i,
                   m.jamming_power * env.noiseQ i)), m)
  | JamType.spot =>
      if is_in_bandwidth m = false then (List.replicate n ((0 : ℚ), (0 : ℚ)), m)
      else
        let freq_offset := m.jamming_frequency - m.current_freq
        ((List.range n).map
          (fun (i : ℕ) => scaleC m.jamming_power
            (env.cis2pi (freq_offset / m.sample_rate *
              ((m.sample_counter : ℚ) + (i : ℚ))))),
         { m with sample_counter := m.sample_counter + n })
  | JamType.sweep =>
      if is_in_bandwidth m = false then (List.replicate n ((0 : ℚ), (0 : ℚ)), m)
      else
        let freq_offset := m.jamming_frequency - m.current_freq
        let inst : ℕ → ℚ := fun j =>
          freq_offset + 50000 * env.sin2pi
            (10 * ((m.sample_counter : ℚ) + (j : ℚ)) / m.sample_rate)
        ((List.range n).map
          (fun (i : ℕ) => scaleC m.jamming_power
            (env.cis2pi (cumsum (fun j => inst j / m.sample_rate) i))),
         { m with sample_counter := m.sample_counter + n })
  | JamType.pulse =>
      if is_in_bandwidth m = false then (List.replicate n ((0 : ℚ), (0 : ℚ)), m)
      else
        let freq_offset := m.jamming_frequency - m.current_freq
        ((List.range n).map
          (fun (i : ℕ) =>
            if i % 1000 < 100 then
              scaleC m.jamming_power
                (env.cis2pi (freq_offset / m.sample_rate *
                  ((m.sample_counter : ℚ) + (i : ℚ))))
            else ((0 : ℚ), (0 : ℚ))),
         { m with sample_counter := m.sample_counter + n })
  | JamType.chirp =>
      if is_in_bandwidth m = false then (List.replicate n ((0 : ℚ), (0 : ℚ)), m)
      else
        let freq_offset := m.jamming_frequency - m.current_freq
        let sweep_time := m.sample_rate / 100000
        let phase_acc : ℕ → ℚ := fun j =>
          ratMod ((m.sample_counter : ℚ) + (j : ℚ)) sweep_time / sweep_time
        let inst : ℕ → ℚ := fun j =>
          freq_offset + 50000 * (phase_acc j - 1/2)
        ((List.range n).map
          (fun (i : ℕ) => scaleC m.jamming_power
            (env.cis2pi (cumsum (fun j => inst j / m.sample_rate) i))),
         { m with sample_counter := m.sample_counter + n })
  | JamType.fhss =>
      if is_in_bandwidth m = false then (List.replicate n ((0 : ℚ), (0 : ℚ)), m)
      else
        let freq_offset := m.jamming_frequency - m.current_freq
        let hop_duration := (⌊m.sample_rate / 100⌋).toNat
        ((List.range n).map
          (fun (i : ℕ) =>
            let b := i / hop_duration
            let t0 := i - b * hop_duration
            scaleC m.jamming_power
              (env.cis2pi ((freq_offset + hopFreqs (env.hop b)) /
                m.sample_rate * (t0 : ℚ)))), m)

/-- Maximum squared magnitude over a chunk (0 for the empty chunk).
The source tests `np.max(np.abs(jamming_iq)) > 0`, which holds iff the
maximum squared magnitude is positive. -/
def maxAbsSq (l : List Cx) : ℚ :=
  l.foldr (fun z acc => max (z.1 * z.1 + z.2 * z.2) acc) 0

/-- `SignalMixer.mix_signals`: return the clean chunk unchanged when
jamming is disabled or the chunk is empty; otherwise generate a jamming
chunk of matching length and add it element-wise, unless the generated
chunk is entirely zero, in which case the clean chunk is returned
unchanged.  The updated mixer state is returned alongside. -/
def mix_signals (env : Env) (m : SignalMixer) (clean : List Cx) :
    List Cx × SignalMixer :=
  if m.jamming_enabled = false ∨ clean.length = 0 then (clean, m)
  else
    let p := generate_jamming env m clean.length
    if 0 < maxAbsSq p.1 then (List.zipWith addC clean p.1, p.2)
    else (clean, p.2)

/-! ### IQPlayer (iq_player.py) -/

/-- State of `IQPlayer` with a loaded sample buffer. -/
structure IQPlayer where
  samples : List Cx
  running : Bool
  paused : Bool
  position : ℕ
  deriving DecidableEq, Repr

/-- `IQPlayer.get_chunk`: returns `none` when not running or paused;
otherwise slices `samples[position:end_pos]` with
`end_pos = min(position + chunk_size, len(samples))` and resets the
position to 0 when `end_pos` reached the end of file, else advances it
to `end_pos`.  (The real-time pacing sleeps are not modelled.) -/
def get_chunk (p : IQPlayer) (chunk_size : ℕ) : Option (List Cx) × IQPlayer :=
  if p.running = false ∨ p.paused = true then (none, p)
  else
    let end_pos := min (p.position + chunk_size) p.samples.length
    let chunk := (p.samples.drop p.position).take (end_pos - p.position)
    if p.samples.length ≤ end_pos then (some chunk, { p with position := 0 })
    else (some chunk, { p with position := end_pos })

/-- The state after emitting `k` chunks of size `c`. -/
def emit_chunks (c : ℕ) (k : ℕ) (p : IQPlayer) : IQPlayer :=
  (fun q => (get_chunk q c).2)^[k] p

/-! ### CRC-16-CCITT and the AIS frame hunt
(clock_recovery.py, ais_decoder.py) -/

/-- Numeric value of a bit. -/
def bitVal (b : Bool) : ℕ := cond b 1 0

/-- One iteration of the `calculate_crc` loop: xor the bit into the top
of the register, shift, conditionally xor the polynomial 0x1021, and
mask to 16 bits. -/
def crc_step (crc : ℕ) (b : Bool) : ℕ :=
  let c1 := crc ^^^ (bitVal b <<< 15)
  let c2 := if c1 &&& 32768 ≠ 0 then (c1 <<< 1) ^^^ 4129 else c1 <<< 1
  c2 &&& 65535

/-- `calculate_crc` (clock_recovery.py): CRC-16-CCITT with initial value
0xFFFF over the data bits, MSB-first. -/
def calculate_crc (bits : List Bool) : ℕ := bits.foldl crc_step 65535

/-- MSB-first accumulation of a bit list into a natural number
(`received_crc = (received_crc << 1) | bit`). -/
def bitsToNat (bits : List Bool) : ℕ :=
  bits.foldl (fun a b => a <<< 1 ||| bitVal b) 0

/-- `verify_ais_crc` (clock_recovery.py): split off the trailing 16 CRC
bits and compare with the computed CRC of the rest. -/
def verify_ais_crc (bits : List Bool) : Bool :=
  if bits.length < 16 then false
  else
    let data_bits := bits.take (bits.length - 16)
    let crc_bits := bits.drop (bits.length - 16)
    bitsToNat crc_bits == calculate_crc data_bits

/-- Message type of an AIS packet: the value of its first 6 bits
(`(bits[0] << 5) | ... | bits[5]` in ais_decoder.py). -/
def ais_msg_type (bits : List Bool) : ℕ := bitsToNat (bits.take 6)

/-- Acceptance test of `AISDecoder._decode_ais_packet` on the
deterministic path (zero jamming power, so no random bit flips): the
packet produces a report iff its message type is between 1 and 3 and it
has at least 168 bits.  No CRC check appears in the source. -/
def decode_ais_packet_ok (bits : List Bool) : Bool :=
  decide (1 ≤ ais_msg_type bits) && decide (ais_msg_type bits ≤ 3) &&
    decide (168 ≤ bits.length)

/-- Whether an alternating 24-bit preamble `0101...` starts at index `i`
of the buffer (`expected = j % 2` in the source). -/
def is_preamble_at (buf : List Bool) (i : ℕ) : Bool :=
  (List.range 24).all (fun j => buf.getD (i + j) false == decide (j % 2 = 1))

/-- Preamble hunt of `_decode_ais_audio`: the first index
`i < len(buffer) - 24` where the alternating pattern matches. -/
def find_preamble (buf : List Bool) : Option ℕ :=
  (List.range (buf.length - 24)).find? (fun i => is_preamble_at buf i)

/-- The candidate-length loop of `_decode_ais_audio`: try the lengths in
order, skip any that does not fit the buffer, and return the first whose
packet is accepted, together with the packet. -/
def try_packet_lengths (buf : List Bool) (start : ℕ) :
    List ℕ → Option (ℕ × List Bool)
  | [] => none
  | L :: rest =>
    if buf.length < start + L then try_packet_lengths buf start rest
    else
      let pkt := (buf.drop start).take L
      if decode_ais_packet_ok pkt then some (L, pkt)
      else try_packet_lengths buf start rest

/-- One iteration of the packet-hunt loop body of `_decode_ais_audio`:
find a preamble (discarding all but the last 256 bits when none is
found), require at least 168 bits after it, try the candidate lengths,
and either consume the accepted packet or drop the buffer one bit past
the preamble position. -/
def ais_hunt_step (buf : List Bool) : Option (List Bool) × List Bool :=
  match find_preamble buf with
  | none => (none, buf.drop (buf.length - 256))
  | some p =>
      let start := p + 24
      if buf.length < start + 168 then (none, buf)
      else
        match try_packet_lengths buf start [168, 256, 424] with
        | some r => (some r.2, buf.drop (start + r.1))
        | none => (none, buf.drop (p + 1))

/-! ### Metrics (metrics_analyzer.py) -/

/-- The BER-from-SNR table of `MetricsAnalyzer._analyze_chunk`,
transcribed with the source's strict comparisons (`snr_db > 15`, ...). -/
def ber_of_snr (snr : ℚ) : ℚ :=
  if 15 < snr then 1/100000
  else if 12 < snr then 1/10000
  else if 10 < snr then 1/1000
  else if 8 < snr then 1/100
  else if 6 < snr then 1/20
  else if 4 < snr then 3/20
  else if 2 < snr then 3/10
  else if 0 < snr then 2/5
  else 1/2

/-- Packet success for 1000-bit packets:
`(1 - min(0.5, max(0.0, ber))) ** 1000`. -/
def packet_success_of (ber : ℚ) : ℚ :=
  (1 - min (1/2) (max 0 ber)) ^ (1000 : ℕ)

/-- The (BER, packet-success) pair reported by `_analyze_chunk` for a
measured SNR. -/
def analyze_ber_metrics (snr : ℚ) : ℚ × ℚ :=
  (ber_of_snr snr, packet_success_of (ber_of_snr snr))

/-- Modelled from the spec: the BER table as the claim states it, with
thresholds read as non-strict (`SNR >= 15 dB -> 1e-5`, ...).  Used only
to compare the claimed table against the source's table. -/
def ber_table_claim (snr : ℚ) : ℚ :=
  if 15 ≤ snr then 1/100000
  else if 12 ≤ snr then 1/10000
  else if 10 ≤ snr then 1/1000
  else if 8 ≤ snr then 1/100
  else if 6 ≤ snr then 1/20
  else if 4 ≤ snr then 3/20
  else if 2 ≤ snr then 3/10
  else if 0 ≤ snr then 2/5
  else 1/2

/-! ### Wire quantization (rtl_tcp.py / rtl_tcp_client.py) -/

/-- `RTLTCPServer.broadcast_samples` per component: clip to [-1, 1],
then `(v * 127.5 + 127.5).astype(np.uint8)`.  The cast truncates toward
zero; the clipped value lands in [0, 255], so the truncation is a
floor. -/
def broadcast_quantize (v : ℚ) : ℤ :=
  let w := max (-1) (min 1 v)
  ⌊w * (255/2) + 255/2⌋

/-- `RTLTCPClient.get_chunk` per component: `(u - 127.5) / 127.5`. -/
def client_dequantize (u : ℤ) : ℚ := ((u : ℚ) - 255/2) / (255/2)

/-! ### Concrete inputs used by witnesses and counterexamples -/

/-- A fixed oracle environment for evaluating witnesses. -/
def env0 : Env :=
  { noiseI := fun _ => 0
    noiseQ := fun _ => 0
    hop := fun _ => 0
    sin2pi := fun _ => 0
    cis2pi := fun _ => (1, 0) }

/-- A spot-jammer state tuned out of passband: centre 0 Hz, sample rate
2 Hz, target 1 Hz, so |fj - fc| = 1 = fs/2. -/
def mixerSpotOut : SignalMixer :=
  { sample_rate := 2
    jamming_enabled := true
    jamming_type := JamType.spot
    jamming_power := 1/2
    jamming_frequency := 1
    current_freq := 0
    sample_counter := 3 }

/-- A spot-jammer state tuned in passband: centre 0 Hz, sample rate
8 Hz, target 1 Hz. -/
def mixerSpotIn : SignalMixer :=
  { sample_rate := 8
    jamming_enabled := true
    jamming_type := JamType.spot
    jamming_power := 1/2
    jamming_frequency := 1
    current_freq := 0
    sample_counter := 3 }

/-- A running, unpaused player over a 10-sample file, read offset 8
(reachable from offset 0 by one `get_chunk(8)` call). -/
def player10at8 : IQPlayer :=
  { samples := List.replicate 10 ((0 : ℚ), (0 : ℚ))
    running := true
    paused := false
    position := 8 }

/-- A running, unpaused player over a 10-sample file at offset 0. -/
def player10 : IQPlayer :=
  { samples := List.replicate 10 ((0 : ℚ), (0 : ℚ))
    running := true
    paused := false
    position := 0 }

/-- A 168-bit candidate AIS payload: six header bits encoding message
type 1, then 162 zero bits (so its trailing 16-bit CRC field is zero). -/
def pkt168 : List Bool :=
  List.replicate 5 false ++ [true] ++ List.replicate 162 false

/-- A bit buffer holding a 24-bit alternating preamble followed by 168
zero bits (message type 0, rejected at every candidate length). -/
def bufReject : List Bool :=
  (List.range 24).map (fun j => decide (j % 2 = 1)) ++
    List.replicate 168 false

/-! ## Helper lemmas -/

/-- Out-of-passband characterization of `is_in_bandwidth`. -/
lemma is_in_bandwidth_eq_false
    {m : SignalMixer}
    (hb : m.sample_rate / 2 ≤ |m.jamming_frequency - m.current_freq|) :
    is_in_bandwidth m = false := by
  simp only [is_in_bandwidth, decide_eq_false_iff_not, not_lt]
  exact hb

/-- A chunk whose entries are all zero has zero maximum squared
magnitude. -/
lemma maxAbsSq_of_all_zero {l : List Cx}
    (h : ∀ z ∈ l, z = ((0 : ℚ), (0 : ℚ))) : maxAbsSq l = 0 := by
  induction l with
  | nil => rfl
  | cons z t ih =>
      have hz := h z (List.mem_cons_self z t)
      have ht : ∀ w ∈ t, w = ((0 : ℚ), (0 : ℚ)) :=
        fun w hw => h w (List.mem_cons_of_mem z hw)
      have hstep : maxAbsSq (z :: t) = max (z.1 * z.1 + z.2 * z.2) (maxAbsSq t) :=
        rfl
      rw [hstep, ih ht, hz]
      norm_num

/-! ## Claim theorems -/

/-- C1: for every jammer waveform kind other than barrage, if
|fj - fc| ≥ fs/2 then the generated jammer chunk is exactly the all-zero
chunk of the requested length, for every length and amplitude. -/
theorem c1_out_of_passband_zero_chunk (env : Env) (m : SignalMixer) (n : ℕ)
    (hk : m.jamming_type ≠ JamType.barrage)
    (hb : m.sample_rate / 2 ≤ |m.jamming_frequency - m.current_freq|) :
    (generate_jamming env m n).1 = List.replicate n ((0 : ℚ), (0 : ℚ)) := by
  have hband := is_in_bandwidth_eq_false hb
  cases ht : m.jamming_type with
  | barrage => exact absurd ht hk
  | spot => simp [generate_jamming, ht, hband]
  | sweep => simp [generate_jamming, ht, hband]
  | pulse => simp [generate_jamming, ht, hband]
  | chirp => simp [generate_jamming, ht, hband]
  | fhss => simp [generate_jamming, ht, hband]

/-- Witness for C1 at a concrete out-of-passband spot jammer. -/
theorem c1_witness :
    mixerSpotOut.jamming_type ≠ JamType.barrage ∧
    mixerSpotOut.sample_rate / 2 ≤
      |mixerSpotOut.jamming_frequency - mixerSpotOut.current_freq| ∧
    (generate_jamming env0 mixerSpotOut 3).1 =
      List.replicate 3 ((0 : ℚ), (0 : ℚ)) :=
  ⟨by decide, by norm_num [mixerSpotOut],
    c1_out_of_passband_zero_chunk env0 mixerSpotOut 3 (by decide)
      (by norm_num [mixerSpotOut])⟩

/-- C2: for the spot waveform with fixed tuning, target and amplitude,
in passband, two consecutive chunks of lengths n1 and n2 concatenate to
exactly the single chunk of length n1 + n2 generated from the same
starting state: the persistent sample counter makes the tone
phase-continuous across the chunk boundary. -/
theorem c2_spot_phase_continuity (env : Env) (m : SignalMixer) (n1 n2 : ℕ)
    (ht : m.jamming_type = JamType.spot)
    (hb : is_in_bandwidth m = true) :
    (generate_jamming env m n1).1 ++
      (generate_jamming env (generate_jamming env m n1).2 n2).1 =
    (generate_jamming env m (n1 + n2)).1 := by
  obtain ⟨sr, en, ty, pw, fj, fc, k⟩ := m
  dsimp only at ht hb ⊢
  subst ht
  have hb' : |fj - fc| < sr / 2 := by
    simpa [is_in_bandwidth] using hb
  simp only [generate_jamming, is_in_bandwidth, hb', decide_True,
    Bool.true_eq_false, if_false, ite_false]
  rw [List.range_add, List.map_append, List.map_map]
  congr 1
  refine List.map_congr_left ?_
  intro i _
  have harg :
      (fj - fc) / sr * (((k + n1 : ℕ) : ℚ) + (i : ℚ)) =
      (fj - fc) / sr * ((k : ℚ) + ((n1 + i : ℕ) : ℚ)) := by
    push_cast
    ring
  simp only [Function.comp_apply, harg]

/-- Witness for C2 at a concrete in-passband spot jammer. -/
theorem c2_witness :
    mixerSpotIn.jamming_type = JamType.spot ∧
    is_in_bandwidth mixerSpotIn = true ∧
    (generate_jamming env0 mixerSpotIn 1).1 ++
      (generate_jamming env0 (generate_jamming env0 mixerSpotIn 1).2 2).1 =
    (generate_jamming env0 mixerSpotIn (1 + 2)).1 :=
  ⟨rfl, by simp only [is_in_bandwidth, mixerSpotIn, decide_eq_true_eq]; norm_num,
   c2_spot_phase_continuity env0 mixerSpotIn 1 2 rfl
     (by simp only [is_in_bandwidth, mixerSpotIn, decide_eq_true_eq]; norm_num)⟩

/-- Counterexample to C3: changing the amplitude through
`set_jamming_power` is a parameter change, yet the sample counter is not
reset.  Starting from the initial mixer with counter 7 and amplitude
1/10, setting the amplitude to 1/2 changes the stored amplitude but
leaves the counter at 7. -/
theorem c3_counterexample :
    (set_jamming_power { mixerInit with sample_counter := 7 }
        (1/2)).jamming_power ≠
      ({ mixerInit with sample_counter := 7 } : SignalMixer).jamming_power ∧
    (set_jamming_power { mixerInit with sample_counter := 7 }
        (1/2)).sample_counter = 7 := by
  constructor
  · norm_num [set_jamming_power, mixerInit]
  · rfl

/-- C3 (amended): the sample counter resets to zero on every tuning
change (`set_frequency`, `set_sample_rate`), target change
(`set_jamming_frequency`) and valid waveform-kind change
(`set_jamming_type`); it is left unchanged by an amplitude change
(`set_jamming_power`); and on chunk emission it advances by exactly the
chunk length for the spot, sweep, pulse and chirp kinds when the jammer
is in passband, and is left unchanged for barrage, fhss and any
out-of-passband emission. -/
theorem c3_amended_counter_dynamics :
    (∀ m f, (set_frequency m f).sample_counter = 0) ∧
    (∀ m r, (set_sample_rate m r).sample_counter = 0) ∧
    (∀ m f, (set_jamming_frequency m f).sample_counter = 0) ∧
    (∀ m t, (set_jamming_type m t).sample_counter = 0) ∧
    (∀ m p, (set_jamming_power m p).sample_counter = m.sample_counter) ∧
    (∀ (env : Env) (m : SignalMixer) (n : ℕ),
      (generate_jamming env m n).2.sample_counter =
        if (m.jamming_type = JamType.spot ∨ m.jamming_type = JamType.sweep ∨
            m.jamming_type = JamType.pulse ∨ m.jamming_type = JamType.chirp) ∧
            is_in_bandwidth m = true
        then m.sample_counter + n else m.sample_counter) := by
  refine ⟨fun m f => rfl, fun m r => rfl, fun m f => rfl, fun m t => rfl,
    fun m p => rfl, ?_⟩
  intro env m n
  rcases hty : m.jamming_type <;> rcases hb : is_in_bandwidth m <;>
    simp [generate_jamming, hty, hb]

/-- Counterexample to C8: a negative amplitude input is not rejected;
it is clamped to 0, changing the stored amplitude (from the initial
1/10 to 0), and no error path exists in the setter. -/
theorem c8_counterexample :
    (set_jamming_power mixerInit (-1/2)).jamming_power = 0 ∧
    mixerInit.jamming_power = 1/10 ∧
    (set_jamming_power mixerInit (-1/2)).jamming_power ≠
      mixerInit.jamming_power := by
  refine ⟨?_, rfl, ?_⟩ <;> norm_num [set_jamming_power, mixerInit]

/-- C8 (amended): the jamming-amplitude setter clamps its argument to
[0, 1] (a negative input stores amplitude 0 rather than failing), the
stored amplitude always lands in [0, 1], and every other field of the
jammer status is left unchanged; no input is rejected. -/
theorem c8_amended_power_clamp (m : SignalMixer) (p : ℚ) :
    (set_jamming_power m p).jamming_power = max 0 (min 1 p) ∧
    0 ≤ (set_jamming_power m p).jamming_power ∧
    (set_jamming_power m p).jamming_power ≤ 1 ∧
    (set_jamming_power m p).jamming_enabled = m.jamming_enabled ∧
    (set_jamming_power m p).jamming_type = m.jamming_type ∧
    (set_jamming_power m p).jamming_frequency = m.jamming_frequency ∧
    (set_jamming_power m p).current_freq = m.current_freq ∧
    (set_jamming_power m p).sample_rate = m.sample_rate ∧
    (set_jamming_power m p).sample_counter = m.sample_counter :=
  ⟨rfl, le_max_left 0 _, max_le zero_le_one (min_le_left 1 p),
    rfl, rfl, rfl, rfl, rfl, rfl⟩

/-- C10: whenever `mix_signals` is called with jamming disabled, with an
empty input chunk, or with a generated jamming chunk that is entirely
zero, it returns the clean input chunk itself, with no element-wise
addition performed. -/
theorem c10_mix_identity (env : Env) (m : SignalMixer) (clean : List Cx)
    (h : m.jamming_enabled = false ∨ clean = [] ∨
      ∀ z ∈ (generate_jamming env m clean.length).1, z = ((0 : ℚ), (0 : ℚ))) :
    (mix_signals env m clean).1 = clean := by
  rcases h with h | h | h
  · simp [mix_signals, h]
  · subst h
    simp [mix_signals]
  · by_cases hd : m.jamming_enabled = false ∨ clean.length = 0
    · rcases hd with hd | hd
      · simp [mix_signals, hd]
      · have hnil : clean = [] := List.length_eq_zero.mp hd
        simp [mix_signals, hnil]
    · have hz : maxAbsSq (generate_jamming env m clean.length).1 = 0 :=
        maxAbsSq_of_all_zero h
      simp [mix_signals, hd, hz]
      split <;> rfl

/-- Witness for C10 with jamming disabled on a concrete chunk. -/
theorem c10_witness :
    (mix_signals env0 mixerInit [((1 : ℚ), (2 : ℚ))]).1 =
      [((1 : ℚ), (2 : ℚ))] :=
  c10_mix_identity env0 mixerInit [((1 : ℚ), (2 : ℚ))] (Or.inl rfl)

/-- Closed form of `get_chunk` in the running, unpaused state: the
returned chunk is the slice of at most `n` samples from the current
offset, and the new offset is 0 exactly when the read reached the end
of file. -/
lemma get_chunk_eq (q : IQPlayer) (n : ℕ)
    (hr : q.running = true) (hp : q.paused = false) :
    get_chunk q n =
      (some ((q.samples.drop q.position).take n),
       { q with position :=
          if q.samples.length ≤ q.position + n then 0
          else q.position + n }) := by
  unfold get_chunk
  rw [if_neg (by simp [hr, hp])]
  by_cases hN : q.samples.length ≤ q.position + n
  · have hmin : min (q.position + n) q.samples.length = q.samples.length := by
      omega
    have htake : (q.samples.drop q.position).take
        (q.samples.length - q.position) = (q.samples.drop q.position).take n := by
      rw [List.take_eq_take]
      simp only [List.length_drop]
      omega
    simp [hmin, hN, htake]
  · have hmin : min (q.position + n) q.samples.length = q.position + n := by
      omega
    have htake : (q.samples.drop q.position).take
        (q.position + n - q.position) = (q.samples.drop q.position).take n := by
      have he : q.position + n - q.position = n := by omega
      rw [he]
    simp [hmin, hN, htake]

/-- Emitting chunks preserves the flags and the sample buffer, and the
offset evolves by the wrap-at-end step function. -/
lemma emit_chunks_invariant (c : ℕ) (p : IQPlayer)
    (hr : p.running = true) (hp : p.paused = false) (j : ℕ) :
    (emit_chunks c j p).running = true ∧ (emit_chunks c j p).paused = false ∧
    (emit_chunks c j p).samples = p.samples ∧
    (emit_chunks c j p).position =
      (fun x => if p.samples.length ≤ x + c then 0 else x + c)^[j]
        p.position := by
  induction j with
  | zero => exact ⟨hr, hp, rfl, rfl⟩
  | succ j ih =>
      obtain ⟨h1, h2, h3, h4⟩ := ih
      have hstep : emit_chunks c (j + 1) p =
          (get_chunk (emit_chunks c j p) c).2 := by
        simp only [emit_chunks, Function.iterate_succ_apply']
      rw [hstep, get_chunk_eq (emit_chunks c j p) c h1 h2]
      refine ⟨h1, h2, h3, ?_⟩
      simp only [Function.iterate_succ_apply']
      rw [h3, h4]

/-- Iterating the wrap-at-end offset step from 0 for the ceiling number
of chunks lands back on offset 0. -/
lemma wrap_iterate_zero (N c : ℕ) (hc : 0 < c) (hcN : c ≤ N) :
    (fun x => if N ≤ x + c then 0 else x + c)^[(N + c - 1) / c] 0 = 0 := by
  have hm1 : 1 ≤ (N + c - 1) / c := (Nat.one_le_div_iff hc).mpr (by omega)
  obtain ⟨m1, hm1e⟩ : ∃ m1, (N + c - 1) / c = m1 + 1 :=
    ⟨(N + c - 1) / c - 1, by omega⟩
  have hdm := Nat.div_add_mod (N + c - 1) c
  have hmod : (N + c - 1) % c < c := Nat.mod_lt _ hc
  rw [hm1e] at hdm
  have hceq : c * (m1 + 1) = c * m1 + c := by ring
  have hNm : N ≤ c * m1 + c := by omega
  have hm1N : c * m1 < N := by omega
  have aux : ∀ j, j ≤ m1 →
      (fun x => if N ≤ x + c then 0 else x + c)^[j] 0 = c * j := by
    intro j
    induction j with
    | zero => intro _; simp
    | succ i ih =>
        intro hj
        have hci : c * (i + 1) ≤ c * m1 := Nat.mul_le_mul (le_refl c) hj
        have hie : c * (i + 1) = c * i + c := by ring
        rw [Function.iterate_succ_apply', ih (by omega)]
        have hlt : ¬ (N ≤ c * i + c) := by omega
        simp only [hlt, if_false, ite_false]
        omega
  rw [hm1e, Function.iterate_succ_apply', aux m1 le_rfl]
  simp only [hNm, if_true, ite_true]

/-- C4: for every loaded file of N samples and chunk size c ≤ N,
starting from offset 0 in the running, unpaused state, emitting
⌈N/c⌉ = (N + c - 1) / c chunks brings the read offset back to 0, so the
next chunk begins with sample 0. -/
theorem c4_loop_offset_returns (p : IQPlayer) (c : ℕ)
    (hr : p.running = true) (hp : p.paused = false) (h0 : p.position = 0)
    (hc : 0 < c) (hcN : c ≤ p.samples.length) :
    (emit_chunks c ((p.samples.length + c - 1) / c) p).position = 0 := by
  have hinv := emit_chunks_invariant c p hr hp ((p.samples.length + c - 1) / c)
  rw [hinv.2.2.2, h0, wrap_iterate_zero p.samples.length c hc hcN]

/-- Witness for C4: a 10-sample file read in chunks of 8 returns to
offset 0 after ⌈10/8⌉ = 2 chunks. -/
theorem c4_witness :
    player10.running = true ∧ player10.paused = false ∧
    player10.position = 0 ∧ 0 < 8 ∧ 8 ≤ player10.samples.length ∧
    (emit_chunks 8 2 player10).position = 0 := by
  refine ⟨rfl, rfl, rfl, by decide, by decide, ?_⟩
  have h := c4_loop_offset_returns player10 8 rfl rfl rfl (by decide) (by decide)
  simpa [player10] using h

/-- Counterexample to C5: the returned chunk can be shorter than the
requested size even though the player is running, unpaused, and the
chunk size (8) is at most the file length (10): from offset 8 the call
returns only the 2 remaining samples; the read does not wrap around to
fill the chunk within the same call. -/
theorem c5_counterexample :
    player10at8.running = true ∧ player10at8.paused = false ∧
    8 ≤ player10at8.samples.length ∧
    ((get_chunk player10at8 8).1.getD []).length = 2 := by
  refine ⟨rfl, rfl, by decide, ?_⟩
  rfl

/-- C5 (amended): whenever the player is running and not paused,
`get_chunk` returns exactly the `min n (N - position)` samples from the
current offset (so the chunk is exactly `n` samples only when
`position + n ≤ N`); at end-of-file the offset wraps to 0 within the
same call, so the *next* chunk begins with sample 0, but the current
short read is not completed from the start of the file. -/
theorem c5_amended_chunk_semantics (q : IQPlayer) (n : ℕ)
    (hr : q.running = true) (hp : q.paused = false) :
    (get_chunk q n).1 = some ((q.samples.drop q.position).take n) ∧
    ((q.samples.drop q.position).take n).length =
      min n (q.samples.length - q.position) ∧
    (get_chunk q n).2.position =
      (if q.samples.length ≤ q.position + n then 0 else q.position + n) := by
  rw [get_chunk_eq q n hr hp]
  refine ⟨rfl, ?_, rfl⟩
  simp [List.length_take, List.length_drop]

/-- Witness for C5 (amended) at the concrete short-read state. -/
theorem c5_witness :
    player10at8.running = true ∧ player10at8.paused = false ∧
    (get_chunk player10at8 8).1 =
      some ((player10at8.samples.drop player10at8.position).take 8) ∧
    (get_chunk player10at8 8).2.position = 0 := by
  refine ⟨rfl, rfl, (c5_amended_chunk_semantics player10at8 8 rfl rfl).1, ?_⟩
  have h := (c5_amended_chunk_semantics player10at8 8 rfl rfl).2.2
  simpa [player10at8] using h

set_option maxRecDepth 8000 in
set_option maxHeartbeats 2000000 in
/-- Counterexample to C6: a 168-bit candidate payload whose CRC check
fails (its trailing 16 bits are zero while the computed CRC of its first
152 bits is nonzero) is nonetheless accepted by the decoder, because
`_decode_ais_packet` never performs CRC verification — it accepts any
payload whose first 6 bits encode a message type in 1..3. -/
theorem c6_counterexample :
    decode_ais_packet_ok pkt168 = true ∧ verify_ais_crc pkt168 = false := by
  constructor <;> decide

/-- C6 (amended): the AIS frame decoder accepts a candidate payload (of
length 168, 256 or 424 following the 24-bit alternating preamble) iff
its first 6 bits encode a message type between 1 and 3; no CRC
verification is performed (`verify_ais_crc` exists but is never called
by the decode path).  When every candidate length is rejected, the
preamble hunt advances by one bit past the preamble position and
retries. -/
theorem c6_amended_accept_no_crc :
    (∀ bits : List Bool, 168 ≤ bits.length →
      (decode_ais_packet_ok bits = true ↔
        1 ≤ ais_msg_type bits ∧ ais_msg_type bits ≤ 3)) ∧
    (∀ (buf : List Bool) (p : ℕ), find_preamble buf = some p →
      p + 24 + 168 ≤ buf.length →
      try_packet_lengths buf (p + 24) [168, 256, 424] = none →
      ais_hunt_step buf = (none, buf.drop (p + 1))) := by
  constructor
  · intro bits h
    simp [decode_ais_packet_ok, h]
  · intro buf p hf hlen htry
    unfold ais_hunt_step
    rw [hf]
    dsimp only
    rw [if_neg (by omega), htry]

set_option maxRecDepth 8000 in
set_option maxHeartbeats 2000000 in
/-- Witness for C6 (amended): the CRC-failing packet is accepted, and a
buffer whose candidates are all rejected advances by one bit. -/
theorem c6_witness :
    decode_ais_packet_ok pkt168 = true ∧
    ais_hunt_step bufReject = (none, bufReject.drop 1) := by
  constructor
  · exact (c6_amended_accept_no_crc.1 pkt168 (by decide)).mpr (by decide)
  · exact c6_amended_accept_no_crc.2 bufReject 0 (by decide) (by decide)
      (by decide)

/-- Counterexample to C7: at the boundary SNR of exactly 15 dB the
source reports BER 1e-4 (its comparison is the strict `snr_db > 15`),
while the claimed table with non-strict thresholds gives 1e-5. -/
theorem c7_counterexample :
    ber_of_snr 15 = 1/10000 ∧ ber_table_claim 15 = 1/100000 ∧
    ber_of_snr 15 ≠ ber_table_claim 15 := by
  refine ⟨?_, ?_, ?_⟩ <;> norm_num [ber_of_snr, ber_table_claim]

set_option maxHeartbeats 2000000 in
/-- C7 (amended): the reported BER is the piecewise-constant,
monotonically non-increasing function of SNR with *strict* thresholds
(> 15 dB -> 1e-5, > 12 -> 1e-4, > 10 -> 1e-3, > 8 -> 1e-2, > 6 -> 5e-2,
> 4 -> 0.15, > 2 -> 0.30, > 0 -> 0.40, else 0.50); the reported
packet-success rate equals (1 - BER)^1000 with BER clamped to [0, 1/2];
and at each claimed non-strict boundary the value falls in the next
band (e.g. BER(15) = 1e-4, not 1e-5). -/
theorem c7_amended_ber_metrics :
    (∀ s t : ℚ, s ≤ t → ber_of_snr t ≤ ber_of_snr s) ∧
    (∀ s : ℚ, analyze_ber_metrics s =
      (ber_of_snr s, (1 - min (1/2) (max 0 (ber_of_snr s))) ^ (1000 : ℕ))) ∧
    ber_of_snr 15 = 1/10000 ∧ ber_of_snr 12 = 1/1000 ∧
    ber_of_snr 10 = 1/100 ∧ ber_of_snr 8 = 1/20 ∧ ber_of_snr 6 = 3/20 ∧
    ber_of_snr 4 = 3/10 ∧ ber_of_snr 2 = 2/5 ∧ ber_of_snr 0 = 1/2 := by
  refine ⟨?_, fun s => rfl, ?_, ?_, ?_, ?_, ?_, ?_, ?_, ?_⟩
  · intro s t h
    unfold ber_of_snr
    split_ifs <;> linarith
  all_goals norm_num [ber_of_snr]

/-- Witness for C7 (amended): monotonicity applied at SNR 5 ≤ 9. -/
theorem c7_witness : ber_of_snr 9 ≤ ber_of_snr 5 :=
  c7_amended_ber_metrics.1 5 9 (by norm_num)

/-- C9: for every float v in [-1, 1], quantizing to a wire byte as the
broadcast stage does (clip, scale by 127.5, offset 127.5, truncate to
an unsigned byte) and dequantizing as the stream client does
((u - 127.5)/127.5) yields a value within 1/127.5 = 2/255 of v. -/
theorem c9_quantize_roundtrip (v : ℚ) (h1 : -1 ≤ v) (h2 : v ≤ 1) :
    |client_dequantize (broadcast_quantize v) - v| ≤ 2/255 := by
  have hw : max (-1) (min 1 v) = v := by
    rw [min_eq_right h2, max_eq_right h1]
  simp only [broadcast_quantize, client_dequantize, hw]
  set x := v * (255/2) + 255/2 with hx
  have hfl : ((⌊x⌋ : ℚ)) ≤ x := Int.floor_le x
  have hfg : x < (⌊x⌋ : ℚ) + 1 := Int.lt_floor_add_one x
  have heq : ((⌊x⌋ : ℚ) - 255/2) / (255/2) - v = ((⌊x⌋ : ℚ) - x) / (255/2) := by
    rw [hx]
    field_simp
    ring
  rw [heq, abs_div, abs_of_pos (by norm_num : (0:ℚ) < 255/2),
    div_le_iff₀ (by norm_num : (0:ℚ) < 255/2)]
  have habs : |(⌊x⌋ : ℚ) - x| ≤ 1 := by
    rw [abs_le]
    constructor <;> linarith
  have hmul : (2:ℚ)/255 * (255/2) = 1 := by norm_num
  rw [hmul]
  exact habs

/-- Witness for C9 at v = 1/3. -/
theorem c9_witness :
    (-1 : ℚ) ≤ 1/3 ∧ (1/3 : ℚ) ≤ 1 ∧
    |client_dequantize (broadcast_quantize (1/3)) - 1/3| ≤ 2/255 :=
  ⟨by norm_num, by norm_num,
    c9_quantize_roundtrip (1/3) (by norm_num) (by norm_num)⟩
